import Mathlib

/-!
# Verification of the scheduling & orchestration pipeline

A shallow embedding, in Lean 4, of the scheduling core of the
`social-media-agents` repository:

* `agents/scheduler/post_scheduler.py` — the `PostScheduler` class
  (`get_optimal_time`, `get_bulk_schedule`, `get_multi_platform_schedule`);
* `orchestrator.py` — the `Orchestrator` class (`create_content`,
  `schedule_posts`, `run_daily_cycle`) together with the content-pool
  lifecycle of `used` flags;
* the `SchedulerAgent` dispatcher, whose source file is absent from the
  tree and is therefore modelled from the specification (§4.4).

Python naive `datetime` values are embedded as natural numbers counting
seconds from an epoch that falls on a Monday at 00:00 (so weekday 0 of the
embedding is Monday, matching `datetime.weekday()`).  Naive datetimes have
no DST or leap-second behaviour, so `t + timedelta(days=d)` is exactly
`t + d * 86400` seconds, and `t.replace(hour=h, minute=m, second=0,
microsecond=0)` is `t - t % 86400 + h * 3600 + m * 60`.  Sub-minute detail
of `from_time` (Python permits microseconds) is represented at second
granularity; every comparison made by the source reads only the hour and
minute fields, so nothing finer is ever consulted.
-/

namespace SMA

/-! ## Time model -/

/-- Midnight of the day containing `t` (`datetime.replace` with all of
hour, minute, second, microsecond set to zero). -/
def dayStart (t : Nat) : Nat := t - t % 86400

/-- `datetime.weekday()`: 0 = Monday … 6 = Sunday.  The embedding epoch
(second 0) is a Monday 00:00. -/
def weekdayOf (t : Nat) : Nat := t / 86400 % 7

/-- The `hour` field of a datetime. -/
def hourOf (t : Nat) : Nat := t % 86400 / 3600

/-- The `minute` field of a datetime. -/
def minuteOf (t : Nat) : Nat := t % 3600 / 60

/-- `datetime.replace(hour := h, minute := m, second := 0, microsecond := 0)`. -/
def replaceHM (t h m : Nat) : Nat := dayStart t + h * 3600 + m * 60

/-- `datetime.replace(second := 0, microsecond := 0)`: truncate to the minute. -/
def truncMin (t : Nat) : Nat := t - t % 60

/-! ## `PostScheduler.optimal_times` (post_scheduler.py lines 33–93)

Each entry is `(day_of_week, hour, minute)` with day 0 = Monday. -/

def twitterTimes : List (Nat × Nat × Nat) :=
  [(0, 9, 0), (1, 9, 0), (2, 9, 0), (3, 9, 0), (4, 9, 0),
   (0, 12, 0), (1, 12, 0), (2, 12, 0), (3, 12, 0), (4, 12, 0),
   (0, 17, 0), (1, 17, 0), (2, 17, 0), (3, 17, 0), (4, 17, 0),
   (5, 11, 0), (6, 11, 0)]

def instagramTimes : List (Nat × Nat × Nat) :=
  [(0, 10, 30), (1, 10, 30), (2, 10, 30), (3, 10, 30), (4, 10, 30),
   (0, 18, 0), (1, 18, 0), (2, 18, 0), (3, 18, 0), (4, 18, 0),
   (5, 11, 0), (5, 19, 0), (6, 11, 0), (6, 19, 0)]

def linkedinTimes : List (Nat × Nat × Nat) :=
  [(1, 10, 0), (1, 14, 0), (2, 10, 0), (2, 14, 0), (3, 10, 0), (3, 14, 0),
   (0, 11, 0), (4, 11, 0)]

/-- Python `str.lower()` on the platform argument.  Mapped over the
character list directly; for the ASCII platform names involved this agrees
with CPython. -/
def pyLower (s : String) : String := ⟨s.data.map Char.toLower⟩

/-- Lines 114–117 of `get_optimal_time`: lower-case the platform name and
fall back to the Twitter table when the platform is unknown. -/
def lookupTimes (platform : String) : List (Nat × Nat × Nat) :=
  if pyLower platform = "twitter" then twitterTimes
  else if pyLower platform = "instagram" then instagramTimes
  else if pyLower platform = "linkedin" then linkedinTimes
  else twitterTimes

/-! ## `PostScheduler.get_optimal_time` (post_scheduler.py lines 97–184) -/

/-- Python tuple ordering on `(hour, minute)` pairs, as used by
`day_times.sort()`. -/
def slotLE (a b : Nat × Nat) : Prop := a.1 < b.1 ∨ (a.1 = b.1 ∧ a.2 ≤ b.2)

instance (a b : Nat × Nat) : Decidable (slotLE a b) := by
  unfold slotLE; infer_instance

/-- One insertion step of the stable sort used to model `list.sort()`. -/
def insertSlot (a : Nat × Nat) : List (Nat × Nat) → List (Nat × Nat)
  | [] => [a]
  | b :: rest => if slotLE a b then a :: b :: rest else b :: insertSlot a rest

/-- `day_times.sort()` (insertion sort; only the head of the result is ever
read, i.e. the lexicographic minimum). -/
def sortSlots : List (Nat × Nat) → List (Nat × Nat)
  | [] => []
  | a :: rest => insertSlot a (sortSlots rest)

/-- Lines 134–140: the `(hour, minute)` pairs of the template falling on
`targetDay`, sorted. -/
def daySlots (times : List (Nat × Nat × Nat)) (targetDay : Nat) : List (Nat × Nat) :=
  sortSlots ((times.filter (fun s => s.1 == targetDay)).map (fun s => s.2))

/-- Lines 143–152: on day-offset zero, keep only slots strictly later than
`from_time`'s `(hour, minute)`. -/
def laterToday (t : Nat) (slots : List (Nat × Nat)) : List (Nat × Nat) :=
  slots.filter (fun p => decide (hourOf t < p.1 ∨ (p.1 = hourOf t ∧ minuteOf t < p.2)))

/-- The `for day_offset in range(max_days_ahead)` loop (lines 130–171),
taking the list of day offsets still to examine. -/
def slotSearch (times : List (Nat × Nat × Nat)) (t : Nat) : List Nat → Option Nat
  | [] => none
  | d :: ds =>
    match (if d = 0 then laterToday t (daySlots times ((weekdayOf t + d) % 7))
           else daySlots times ((weekdayOf t + d) % 7)).head? with
    | some p => some (replaceHM (t + d * 86400) p.1 p.2)
    | none => slotSearch times t ds

/-- The slot-search core of `get_optimal_time`, parametric in the slot
template: scan `max_days_ahead` days for the first strictly-future slot;
if none exists, fall back to `from_time + 1 day` truncated to the minute
(lines 173–184). -/
def getOptimalTimeFrom (times : List (Nat × Nat × Nat)) (from_time max_days_ahead : Nat) : Nat :=
  match slotSearch times from_time (List.range max_days_ahead) with
  | some t => t
  | none => truncMin (from_time + 86400)

/-- `PostScheduler.get_optimal_time(platform, from_time, max_days_ahead)`.
The default `max_days_ahead` in the source is 7. -/
def get_optimal_time (platform : String) (from_time max_days_ahead : Nat) : Nat :=
  getOptimalTimeFrom (lookupTimes platform) from_time max_days_ahead

example : get_optimal_time "twitter" 0 7 = 9 * 3600 := by decide

/-! ## Strict-future guarantee of `get_optimal_time` (claim C1) -/

theorem truncMin_add_day_gt (t : Nat) : t < truncMin (t + 86400) := by
  unfold truncMin; omega

theorem replaceHM_gt_of_pos (t h m d : Nat) (hd : 1 ≤ d) :
    t < replaceHM (t + d * 86400) h m := by
  unfold replaceHM dayStart
  omega

theorem replaceHM_gt_of_later (t h m : Nat)
    (hlt : hourOf t < h ∨ (h = hourOf t ∧ minuteOf t < m)) :
    t < replaceHM t h m := by
  unfold hourOf minuteOf at hlt
  unfold replaceHM dayStart
  rcases hlt with h1 | ⟨h1, h2⟩ <;> omega

theorem mem_of_head_eq {α : Type} {l : List α} {a : α} (h : l.head? = some a) :
    a ∈ l := by
  cases l with
  | nil => simp at h
  | cons b bs =>
    simp only [List.head?, Option.some.injEq] at h
    exact h ▸ List.mem_cons_self b bs

theorem slotSearch_gt (times : List (Nat × Nat × Nat)) (t : Nat) :
    ∀ (ds : List Nat) (r : Nat), slotSearch times t ds = some r → t < r := by
  intro ds
  induction ds with
  | nil => intro r h; simp [slotSearch] at h
  | cons d ds ih =>
    intro r h
    unfold slotSearch at h
    by_cases hd : d = 0
    · subst hd
      rw [if_pos rfl] at h
      cases hh : (laterToday t (daySlots times ((weekdayOf t + 0) % 7))).head? with
      | none => rw [hh] at h; exact ih r h
      | some p =>
        rw [hh] at h
        simp only [Option.some.injEq, Nat.zero_mul, Nat.add_zero] at h
        have hp := mem_of_head_eq hh
        have hp2 := List.of_mem_filter hp
        rw [decide_eq_true_eq] at hp2
        have := replaceHM_gt_of_later t p.1 p.2 hp2
        omega
    · rw [if_neg hd] at h
      cases hh : (daySlots times ((weekdayOf t + d) % 7)).head? with
      | none => rw [hh] at h; exact ih r h
      | some p =>
        rw [hh] at h
        simp only [Option.some.injEq] at h
        have := replaceHM_gt_of_pos t p.1 p.2 d (Nat.one_le_iff_ne_zero.mpr hd)
        omega

theorem getOptimalTimeFrom_gt (times : List (Nat × Nat × Nat)) (t d : Nat) :
    t < getOptimalTimeFrom times t d := by
  unfold getOptimalTimeFrom
  cases hh : slotSearch times t (List.range d) with
  | none => exact truncMin_add_day_gt t
  | some r => exact slotSearch_gt times t _ r hh

/-- C1: for every platform string, every `from_time`, and every
`max_days_ahead ≥ 1`, `get_optimal_time` returns a datetime strictly later
than `from_time`, on both the slot-matching path and the no-slot fallback
path. -/
theorem c1_get_optimal_time_strictly_future
    (platform : String) (from_time max_days_ahead : Nat)
    (_hd : 1 ≤ max_days_ahead) :
    from_time < get_optimal_time platform from_time max_days_ahead :=
  getOptimalTimeFrom_gt (lookupTimes platform) from_time max_days_ahead

/-- Witness for C1: platform `"twitter"`, `from_time` = Monday 00:00,
`max_days_ahead` = 7. -/
theorem c1_witness : 1 ≤ 7 ∧ 0 < get_optimal_time "twitter" 0 7 :=
  ⟨by decide, c1_get_optimal_time_strictly_future "twitter" 0 7 (by decide)⟩

/-! ## `PostScheduler.get_bulk_schedule` (post_scheduler.py lines 186–225) -/

/-- One choice of the bulk-schedule loop: the candidate is
`get_optimal_time(platform, current_time)` (default window of 7 days); if
it falls less than `min_hours_between` hours after the previously chosen
time, the minimum gap is forced instead (lines 211–218). -/
def bulkNext (times : List (Nat × Nat × Nat)) (min_hours_between cur : Nat) :
    Option Nat → Nat
  | some p =>
    if getOptimalTimeFrom times cur 7 < p + min_hours_between * 3600 then
      p + min_hours_between * 3600
    else getOptimalTimeFrom times cur 7
  | none => getOptimalTimeFrom times cur 7

/-- The `for _ in range(count)` loop of `get_bulk_schedule`: `cur` is the
running cursor (advanced to the chosen time plus one minute), the `Option`
argument is the last entry of the schedule built so far. -/
def bulkAux (times : List (Nat × Nat × Nat)) (min_hours_between : Nat) :
    Nat → Nat → Option Nat → List Nat
  | 0, _, _ => []
  | n + 1, cur, prev =>
    bulkNext times min_hours_between cur prev ::
      bulkAux times min_hours_between n
        (bulkNext times min_hours_between cur prev + 60)
        (some (bulkNext times min_hours_between cur prev))

/-- `PostScheduler.get_bulk_schedule(platform, count, from_time,
min_hours_between)`. -/
def get_bulk_schedule (platform : String) (count from_time min_hours_between : Nat) :
    List Nat :=
  bulkAux (lookupTimes platform) min_hours_between count from_time none

theorem bulkNext_ge (times : List (Nat × Nat × Nat)) (G cur p : Nat) :
    p + G * 3600 ≤ bulkNext times G cur (some p) := by
  show p + G * 3600 ≤
    (if getOptimalTimeFrom times cur 7 < p + G * 3600 then p + G * 3600
     else getOptimalTimeFrom times cur 7)
  split <;> omega

theorem bulkAux_length (times : List (Nat × Nat × Nat)) (G : Nat) :
    ∀ (n cur : Nat) (prev : Option Nat), (bulkAux times G n cur prev).length = n := by
  intro n
  induction n with
  | zero => intro cur prev; rfl
  | succ n ih => intro cur prev; rw [bulkAux]; simp [ih]

theorem bulkAux_chain (times : List (Nat × Nat × Nat)) (G : Nat) :
    ∀ (n cur p : Nat),
      List.Chain (fun a b => a + G * 3600 ≤ b) p (bulkAux times G n cur (some p)) := by
  intro n
  induction n with
  | zero => intro cur p; exact List.Chain.nil
  | succ n ih =>
    intro cur p
    rw [bulkAux]
    exact List.Chain.cons (bulkNext_ge times G cur p) (ih _ _)

theorem bulkAux_chain' (times : List (Nat × Nat × Nat)) (G n cur : Nat) :
    List.Chain' (fun a b => a + G * 3600 ≤ b) (bulkAux times G n cur none) := by
  cases n with
  | zero => exact trivial
  | succ n =>
    rw [bulkAux]
    exact bulkAux_chain times G n _ _

/-- C3: for every platform, count, start time and minimum gap (in hours),
`get_bulk_schedule` returns exactly `count` times; consecutive entries are
at least `min_hours_between` hours apart; and the sequence is
non-decreasing. -/
theorem c3_get_bulk_schedule_spaced
    (platform : String) (count from_time min_hours_between : Nat) :
    (get_bulk_schedule platform count from_time min_hours_between).length = count ∧
    List.Chain' (fun a b => a + min_hours_between * 3600 ≤ b)
      (get_bulk_schedule platform count from_time min_hours_between) ∧
    List.Pairwise (· ≤ ·)
      (get_bulk_schedule platform count from_time min_hours_between) := by
  have hlen := bulkAux_length (lookupTimes platform) min_hours_between count from_time none
  have hch := bulkAux_chain' (lookupTimes platform) min_hours_between count from_time
  refine ⟨hlen, hch, ?_⟩
  haveI : IsTrans Nat (fun a b => a + min_hours_between * 3600 ≤ b) :=
    ⟨by intro a b c h1 h2; omega⟩
  have hpw := List.chain'_iff_pairwise.mp hch
  exact hpw.imp (by intro a b h; omega)

/-! ## `PostScheduler.get_multi_platform_schedule` (post_scheduler.py lines 227–263)

The Python function returns a `dict`; it is embedded as the association
list of assignments in iteration order (for duplicate platform names the
dict would keep the last value; every property proved below holds for all
entries, hence in particular for the dict's retained ones). -/

/-- The `for platform in platforms` loop (lines 250–261): assign each
platform `get_optimal_time(platform, current_time)` and advance the cursor
to `max(current_time + stagger, assigned + stagger)`. -/
def multiAux (stagger : Nat) : List String → Nat → List (String × Nat)
  | [], _ => []
  | p :: ps, cur =>
    (p, get_optimal_time p cur 7) ::
      multiAux stagger ps
        (max (cur + stagger * 60) (get_optimal_time p cur 7 + stagger * 60))

/-- `PostScheduler.get_multi_platform_schedule(platforms, from_time,
stagger_minutes)`. -/
def get_multi_platform_schedule (platforms : List String) (from_time stagger : Nat) :
    List (String × Nat) := multiAux stagger platforms from_time

theorem multiAux_lb (stagger : Nat) :
    ∀ (ps : List String) (cur : Nat) (e : String × Nat),
      e ∈ multiAux stagger ps cur → cur < e.2 := by
  intro ps
  induction ps with
  | nil => intro cur e he; simp [multiAux] at he
  | cons p ps ih =>
    intro cur e he
    rw [multiAux] at he
    rcases List.mem_cons.mp he with rfl | he2
    · exact getOptimalTimeFrom_gt _ _ _
    · have h1 := ih _ e he2
      have h2 : cur ≤ max (cur + stagger * 60) (get_optimal_time p cur 7 + stagger * 60) :=
        le_max_of_le_left (by omega)
      omega

theorem multiAux_pairwise (stagger : Nat) :
    ∀ (ps : List String) (cur : Nat),
      List.Pairwise (fun x y : String × Nat => x.2 + stagger * 60 ≤ y.2)
        (multiAux stagger ps cur) := by
  intro ps
  induction ps with
  | nil => intro cur; simp [multiAux]
  | cons p ps ih =>
    intro cur
    rw [multiAux]
    refine List.Pairwise.cons ?_ (ih _)
    intro e he
    have h1 := multiAux_lb stagger ps _ e he
    have h2 : get_optimal_time p cur 7 + stagger * 60 ≤
        max (cur + stagger * 60) (get_optimal_time p cur 7 + stagger * 60) :=
      le_max_right _ _
    omega

/-- C4: in the mapping returned by `get_multi_platform_schedule`, any two
entries for distinct platforms are at least `stagger_minutes` apart, even
when the platforms' independently optimal slots coincide (the proof places
no coincidence restriction on the slot tables). -/
theorem c4_multi_platform_stagger (platforms : List String) (from_time stagger : Nat) :
    List.Pairwise
      (fun x y : String × Nat =>
        x.1 = y.1 ∨ x.2 + stagger * 60 ≤ y.2 ∨ y.2 + stagger * 60 ≤ x.2)
      (get_multi_platform_schedule platforms from_time stagger) :=
  (multiAux_pairwise stagger platforms from_time).imp
    (fun h => Or.inr (Or.inl h))

/-! ## Scenario claims C6 and C7

Concrete datetimes used below (the embedding epoch, second 0, is a Monday
00:00; week 2 is used so that `from_time - 1 day` exists):

* `640800 = 7·86400 + 10·3600` — a Monday 10:00;
* `727200 = 8·86400 + 10·3600` — the following Tuesday 10:00;
* `633600 = 7·86400 + 8·3600`  — a Monday 08:00;
* `637200 = 7·86400 + 9·3600`  — that Monday 09:00;
* `723600 = 8·86400 + 9·3600`  — the Tuesday 09:00;
* `810000 = 9·86400 + 9·3600`  — the Wednesday 09:00;
* `1242000 = 14·86400 + 9·3600` — the following Monday 09:00. -/

/-- C6 counterexample: with the slot template `[(Monday, 9, 0)]` and
`from_time` = Monday 10:00 (`640800`), the 7-day window covers day offsets
0–6 only — the *following* Monday is offset 7 — so no slot matches and the
fallback fires; the result is Tuesday 10:00 (`727200`), not the following
Monday 09:00 (`1242000`) claimed by the spec. -/
theorem c6_counterexample :
    weekdayOf 640800 = 0 ∧ hourOf 640800 = 10 ∧ minuteOf 640800 = 0 ∧
    weekdayOf 1242000 = 0 ∧ hourOf 1242000 = 9 ∧
    getOptimalTimeFrom [(0, 9, 0)] 640800 7 = 727200 ∧
    ¬ getOptimalTimeFrom [(0, 9, 0)] 640800 7 = 1242000 := by decide

/-- C6 as amended: with the slot template `[(Monday, 9, 0)]` and
`from_time` = Monday 10:00, `get_optimal_time`'s slot search finds no
candidate inside the 7-day window and returns the deterministic fallback
`from_time + 1 day` truncated to the minute — Tuesday 10:00 — which is
strictly in the future (never a past time). -/
theorem c6_single_slot_fallback :
    getOptimalTimeFrom [(0, 9, 0)] 640800 7 = truncMin (640800 + 86400) ∧
    getOptimalTimeFrom [(0, 9, 0)] 640800 7 = 727200 ∧
    weekdayOf 727200 = 1 ∧ hourOf 727200 = 10 ∧ minuteOf 727200 = 0 ∧
    640800 < getOptimalTimeFrom [(0, 9, 0)] 640800 7 := by decide

/-- C7 counterexample: with slots Monday 9:00 and Tuesday 9:00 only,
`get_bulk_schedule("twitter", 3, Monday 08:00, 24)` returns
`[Mon 09:00, Tue 09:00, following Mon 09:00]`: the third lookup (cursor
Tuesday 09:01) finds the *next Monday's* slot at day offset 6, already more
than 24 h after Tuesday 09:00, so the forced 24-hour fallback never fires
and the third element is not Wednesday 09:00 (`810000`). -/
theorem c7_counterexample :
    weekdayOf 633600 = 0 ∧ hourOf 633600 = 8 ∧ minuteOf 633600 = 0 ∧
    weekdayOf 810000 = 2 ∧ hourOf 810000 = 9 ∧
    bulkAux [(0, 9, 0), (1, 9, 0)] 24 3 633600 none = [637200, 723600, 1242000] ∧
    ¬ bulkAux [(0, 9, 0), (1, 9, 0)] 24 3 633600 none = [637200, 723600, 810000] := by
  decide

/-- C7 as amended: with slots Monday 9:00 and Tuesday 9:00 only, the bulk
schedule of 3 posts from Monday 08:00 with a 24-hour minimum gap is
`[Monday 09:00, Tuesday 09:00, following Monday 09:00]`; the third element
comes from the slot search itself (the next Monday slot, 6 days later,
already satisfies the 24-hour gap, so the forced-gap branch is not
taken). -/
theorem c7_bulk_schedule_scenario :
    bulkAux [(0, 9, 0), (1, 9, 0)] 24 3 633600 none = [637200, 723600, 1242000] ∧
    weekdayOf 637200 = 0 ∧ hourOf 637200 = 9 ∧ minuteOf 637200 = 0 ∧
    weekdayOf 723600 = 1 ∧ hourOf 723600 = 9 ∧ minuteOf 723600 = 0 ∧
    weekdayOf 1242000 = 0 ∧ hourOf 1242000 = 9 ∧ minuteOf 1242000 = 0 ∧
    723600 + 24 * 3600 ≤ 1242000 := by decide

/-! ## Case-insensitivity of the platform argument (claim C10) -/

theorem char_ofNat_lower_fix (n : Nat) (h1 : 65 ≤ n) (h2 : n ≤ 90) :
    (Char.ofNat (n + 32)).toLower = Char.ofNat (n + 32) := by
  interval_cases n <;> decide

theorem char_toLower_eq_of (c : Char) (h : c.toNat ≥ 65 ∧ c.toNat ≤ 90) :
    c.toLower = Char.ofNat (c.toNat + 32) := by
  show (if c.toNat ≥ 65 ∧ c.toNat ≤ 90 then Char.ofNat (c.toNat + 32) else c) =
    Char.ofNat (c.toNat + 32)
  exact if_pos h

theorem char_toLower_eq_of_not (c : Char) (h : ¬ (c.toNat ≥ 65 ∧ c.toNat ≤ 90)) :
    c.toLower = c := by
  show (if c.toNat ≥ 65 ∧ c.toNat ≤ 90 then Char.ofNat (c.toNat + 32) else c) = c
  exact if_neg h

theorem char_toLower_idem (c : Char) : c.toLower.toLower = c.toLower := by
  by_cases h : c.toNat ≥ 65 ∧ c.toNat ≤ 90
  · rw [char_toLower_eq_of c h]
    exact char_ofNat_lower_fix c.toNat h.1 h.2
  · rw [char_toLower_eq_of_not c h, char_toLower_eq_of_not c h]

theorem map_toLower_idem :
    ∀ l : List Char, (l.map Char.toLower).map Char.toLower = l.map Char.toLower
  | [] => rfl
  | c :: cs => by
    simp only [List.map_cons, List.cons.injEq]
    exact ⟨char_toLower_idem c, map_toLower_idem cs⟩

theorem pyLower_idem (s : String) : pyLower (pyLower s) = pyLower s :=
  congrArg String.mk (map_toLower_idem s.data)

theorem lookupTimes_lower (platform : String) :
    lookupTimes (pyLower platform) = lookupTimes platform := by
  unfold lookupTimes
  rw [pyLower_idem]

/-- C10: `get_optimal_time` treats the platform name case-insensitively
(the result for `p` equals the result for `lower(p)`), and every platform
whose lower-cased name is not one of `"twitter"`, `"instagram"`,
`"linkedin"` is scheduled with the default template, Twitter's. -/
theorem c10_platform_case_insensitive
    (platform : String) (from_time max_days_ahead : Nat) :
    get_optimal_time platform from_time max_days_ahead =
      get_optimal_time (pyLower platform) from_time max_days_ahead ∧
    (pyLower platform ≠ "twitter" → pyLower platform ≠ "instagram" →
      pyLower platform ≠ "linkedin" →
      get_optimal_time platform from_time max_days_ahead =
        get_optimal_time "twitter" from_time max_days_ahead) := by
  constructor
  · unfold get_optimal_time
    rw [lookupTimes_lower]
  · intro h1 h2 h3
    unfold get_optimal_time lookupTimes
    rw [if_neg h1, if_neg h2, if_neg h3]
    have htw : pyLower "twitter" = "twitter" := by decide
    rw [htw, if_pos rfl]

/-- Witness for C10: the unknown, mixed-case platform `"Facebook"` at
`from_time` 0 with a 7-day window. -/
theorem c10_witness :
    get_optimal_time "Facebook" 0 7 = get_optimal_time (pyLower "Facebook") 0 7 ∧
    get_optimal_time "Facebook" 0 7 = get_optimal_time "twitter" 0 7 :=
  ⟨(c10_platform_case_insensitive "Facebook" 0 7).1,
   (c10_platform_case_insensitive "Facebook" 0 7).2 (by decide) (by decide) (by decide)⟩

/-! ## Orchestrator: the content pool and `schedule_posts` (orchestrator.py)

A pool entry is a JSON object; the fields the scheduling logic reads and
writes are `used` and `scheduled_time` (plus the identity of the item).
The opaque payload is represented by the item id.  `create_content`
(lines 268–275) appends items with `used = False` and no
`scheduled_time`. -/

structure ContentItem where
  id : Nat
  used : Bool
  scheduled_time : Option Nat
deriving DecidableEq, Repr

/-- `[c for c in content_pool[platform] if not c.get('used', False)]`
(lines 310, 326) — the spec's `ContentPool.get_unused`. -/
def get_unused (items : List ContentItem) : List ContentItem :=
  items.filter (fun c => !c.used)


/-- Number of unused entries strictly before position `j` — the iteration
index at which the loop reaches the entry at position `j`. -/
def unusedBefore (items : List ContentItem) (j : Nat) : Nat :=
  ((items.take j).filter (fun c => !c.used)).length

theorem unusedBefore_zero (items : List ContentItem) : unusedBefore items 0 = 0 := rfl

theorem unusedBefore_cons (c : ContentItem) (rest : List ContentItem) (j : Nat) :
    unusedBefore (c :: rest) (j + 1) =
      (if c.used then 0 else 1) + unusedBefore rest j := by
  unfold unusedBefore
  rw [List.take_succ_cons, List.filter_cons]
  by_cases hc : c.used
  · simp [hc]
  · simp [hc]
    omega

/-! ## Pool-level `schedule_posts`, `create_content`, `run_daily_cycle`

`create_content` (orchestrator.py lines 234–292) and `schedule_posts`
(lines 294–384) are each wrapped in one outer `try/except` returning
`False`; `create_content` additionally catches per-platform generation
failures inside its loop, while the scheduling loop of `schedule_posts`
has no inner handler.  Raised exceptions of collaborators are embedded as
`Except Unit` oracle values: `.error ()` is a raise, `.ok x` a normal
return.  The `SchedulerAgent.schedule_post` collaborator (whose source
file is not in the tree) appears as the oracle `schedOkE platform i`,
which either raises or reports whether the returned status is
`'scheduled'`.  A `Bool × Pool` result is the returned flag together with
the pool as persisted on disk afterwards (an exception skips the final
`_save_content_pool`, so mutations made before the raise are not
persisted). -/

/-- The content pool: one ordered list of items per configured platform,
in platform iteration order. -/
abbrev Pool := List (String × List ContentItem)

/-- Lines 308–313: does any platform still hold unused content? -/
def hasUnused (pool : Pool) : Bool :=
  pool.any (fun pl => !(get_unused pl.2).isEmpty)

/-- The per-platform loop of `create_content` (lines 258–281): each
platform's generation call either raises (caught and logged inside the
loop), returns a falsy payload, or returns content, which is appended
with `used = False` (lines 268–275).  One platform's failure touches no
other platform's entry. -/
def createContentPool (gen : String → Except Unit (Option Nat)) (pool : Pool) : Pool :=
  pool.map (fun pl =>
    (pl.1, match gen pl.1 with
           | .ok (some i) => pl.2 ++ [⟨i, false, none⟩]
           | _ => pl.2))

/-- `Orchestrator.create_content` (lines 234–292): `loadTrend` models the
unguarded preamble (trend-report loading); if it raises, the outer
handler returns `False` with the pool unsaved; otherwise the per-platform
loop runs and the pool is saved. -/
def create_content_run (loadTrend : Except Unit Unit)
    (gen : String → Except Unit (Option Nat)) (pool : Pool) : Bool × Pool :=
  match loadTrend with
  | .error _ => (false, pool)
  | .ok _ => (true, createContentPool gen pool)

/-- The scheduling loop of one platform with a possibly-raising
dispatcher.  A raise aborts the whole traversal (there is no per-item or
per-platform handler in `schedule_posts`); a reported result only decides
whether the current item is marked used. -/
def schedLoopE (hr : Bool) (approve : Nat → Bool) (schedOkE : Nat → Except Unit Bool)
    (times : Nat → Nat) (k : Nat) :
    Nat → List ContentItem → Except Unit (List ContentItem)
  | _, [] => .ok []
  | i, c :: rest =>
    if c.used then
      match schedLoopE hr approve schedOkE times k i rest with
      | .error e => .error e
      | .ok l => .ok (c :: l)
    else if i < k then
      if hr && !approve i then
        match schedLoopE hr approve schedOkE times k (i + 1) rest with
        | .error e => .error e
        | .ok l => .ok (c :: l)
      else
        match schedOkE i with
        | .error e => .error e
        | .ok b =>
          match schedLoopE hr approve schedOkE times k (i + 1) rest with
          | .error e => .error e
          | .ok l =>
            .ok ((if b then { c with used := true, scheduled_time := some (times i) }
                  else c) :: l)
    else
      match schedLoopE hr approve schedOkE times k (i + 1) rest with
      | .error e => .error e
      | .ok l => .ok (c :: l)

/-- One platform's step of `schedule_posts` (lines 324–374): a platform
whose unused list is empty is skipped with a warning (`continue`, lines
328–330), leaving the platform untouched; otherwise its list is traversed
with `k = posts_to_schedule = min(len(unused), max_posts)`. -/
def schedulePlatformE (hr : Bool) (approve : Nat → Bool)
    (schedOkE : Nat → Except Unit Bool) (times : Nat → Nat) (maxPosts : Nat)
    (items : List ContentItem) : Except Unit (List ContentItem) :=
  if (get_unused items).isEmpty then .ok items
  else schedLoopE hr approve schedOkE times (min (get_unused items).length maxPosts) 0 items

/-- The `for platform in self.platforms` loop of `schedule_posts`. -/
def poolLoopE (hr : Bool) (approve : String → Nat → Bool)
    (schedOkE : String → Nat → Except Unit Bool) (times : String → Nat → Nat)
    (maxPosts : String → Nat) : Pool → Except Unit Pool
  | [] => .ok []
  | pl :: rest =>
    match schedulePlatformE hr (approve pl.1) (schedOkE pl.1) (times pl.1)
        (maxPosts pl.1) pl.2 with
    | .error e => .error e
    | .ok items2 =>
      match poolLoopE hr approve schedOkE times maxPosts rest with
      | .error e => .error e
      | .ok rest2 => .ok ((pl.1, items2) :: rest2)

/-- `Orchestrator.schedule_posts` (lines 294–384): content creation runs
(and saves the pool) only when *no* platform has unused content (lines
308–320); then every platform is visited in order.  A raised exception
anywhere in the loop is caught by the single outer handler and turns into
`(False, last saved pool)`. -/
def schedule_posts_run (hr : Bool) (loadTrend : Except Unit Unit)
    (gen : String → Except Unit (Option Nat)) (approve : String → Nat → Bool)
    (schedOkE : String → Nat → Except Unit Bool) (times : String → Nat → Nat)
    (maxPosts : String → Nat) (pool : Pool) : Bool × Pool :=
  if hasUnused pool then
    match poolLoopE hr approve schedOkE times maxPosts pool with
    | .ok pool2 => (true, pool2)
    | .error _ => (false, pool)
  else
    match create_content_run loadTrend gen pool with
    | (false, p) => (false, p)
    | (true, pool1) =>
      match poolLoopE hr approve schedOkE times maxPosts pool1 with
      | .ok pool2 => (true, pool2)
      | .error _ => (false, pool1)

/-- `Orchestrator.scan_trends` (lines 209–232): any raise is caught and
becomes a `False` return. -/
def scan_trends_run (scanO : Except Unit Unit) : Bool :=
  match scanO with
  | .ok _ => true
  | .error _ => false

/-- `Orchestrator.run_daily_cycle` (lines 422–453) with its outer
`try/except`: scan (when due), creation (when due), then scheduling, each
of which catches internally and reports a `Bool`; a `False` aborts the
cycle early.  The `Except`-typed result records whether anything
propagated to the caller. -/
def run_daily_cycle_run (scanDue createDue : Bool) (scanO loadTrend : Except Unit Unit)
    (gen : String → Except Unit (Option Nat)) (hr : Bool)
    (approve : String → Nat → Bool) (schedOkE : String → Nat → Except Unit Bool)
    (times : String → Nat → Nat) (maxPosts : String → Nat) (pool : Pool) :
    Except Unit Pool :=
  if scanDue && !scan_trends_run scanO then .ok pool
  else if createDue then
    match create_content_run loadTrend gen pool with
    | (false, p) => .ok p
    | (true, p1) =>
      .ok (schedule_posts_run hr loadTrend gen approve schedOkE times maxPosts p1).2
  else .ok (schedule_posts_run hr loadTrend gen approve schedOkE times maxPosts pool).2

/-! ## Claim C5: per-platform forcing of content generation -/

theorem poolLoopE_ok_get (hr : Bool) (approve : String → Nat → Bool)
    (schedOkE : String → Nat → Except Unit Bool) (times : String → Nat → Nat)
    (maxPosts : String → Nat) :
    ∀ (pool pool2 : Pool),
      poolLoopE hr approve schedOkE times maxPosts pool = .ok pool2 →
      ∀ (j : Nat) (pl : String × List ContentItem), pool[j]? = some pl →
        ∃ items2, pool2[j]? = some (pl.1, items2) ∧
          (get_unused pl.2 = [] → items2 = pl.2) := by
  intro pool
  induction pool with
  | nil => intro pool2 h j pl hj; simp at hj
  | cons q rest ih =>
    intro pool2 h j pl hj
    rw [poolLoopE] at h
    cases hq : schedulePlatformE hr (approve q.1) (schedOkE q.1) (times q.1)
        (maxPosts q.1) q.2 with
    | error e => rw [hq] at h; simp at h
    | ok items2 =>
      rw [hq] at h
      cases hrest : poolLoopE hr approve schedOkE times maxPosts rest with
      | error e => rw [hrest] at h; simp at h
      | ok rest2 =>
        rw [hrest] at h
        simp only [Except.ok.injEq] at h
        subst h
        cases j with
        | zero =>
          simp only [List.getElem?_cons_zero, Option.some.injEq] at hj
          subst hj
          refine ⟨items2, by simp, ?_⟩
          intro hemp
          unfold schedulePlatformE at hq
          rw [hemp] at hq
          simp only [List.isEmpty_nil, if_true, Except.ok.injEq] at hq
          exact hq.symm
        | succ j => simpa using ih rest2 hrest j pl (by simpa using hj)

/-- C5 counterexample: pool `[("twitter", [one unused item]),
("instagram", [])]` with a generator that *would* produce content for
`"instagram"` (`.ok (some 99)`).  Since some platform (twitter) still has
unused content, `schedule_posts` does not force generation at all:
twitter's item is scheduled and instagram's list stays empty — instagram
is simply skipped, contradicting the claim that generation is forced for
each individually-empty platform. -/
theorem c5_counterexample :
    (fun p => if p = "instagram" then (.ok (some 99) : Except Unit (Option Nat))
              else .ok (some 98)) "instagram" = .ok (some 99) ∧
    schedule_posts_run false (.ok ())
        (fun p => if p = "instagram" then .ok (some 99) else .ok (some 98))
        (fun _ _ => true) (fun _ _ => .ok true) (fun _ _ => 1000) (fun _ => 1)
        [("twitter", [⟨1, false, none⟩]), ("instagram", [])] =
      (true, [("twitter", [⟨1, true, some 1000⟩]), ("instagram", [])]) :=
  ⟨rfl, by decide⟩

/-- C5 as amended: `schedule_posts` forces content generation only when
*no* platform holds unused content (in which case generation is applied
to every platform before scheduling); when at least one platform still
has unused content, a platform whose own unused list is empty is skipped
for the cycle and its entry is returned unchanged — no generation is
forced for it. -/
theorem c5_generation_forced_only_when_pool_empty (hr : Bool)
    (loadTrend : Except Unit Unit) (gen : String → Except Unit (Option Nat))
    (approve : String → Nat → Bool) (schedOkE : String → Nat → Except Unit Bool)
    (times : String → Nat → Nat) (maxPosts : String → Nat) (pool : Pool) :
    (hasUnused pool = true →
      ∀ (j : Nat) (pl : String × List ContentItem), pool[j]? = some pl →
        get_unused pl.2 = [] →
        ((schedule_posts_run hr loadTrend gen approve schedOkE times maxPosts
            pool).2)[j]? = some pl) ∧
    (hasUnused pool = false → loadTrend = .ok () →
      schedule_posts_run hr loadTrend gen approve schedOkE times maxPosts pool =
        match poolLoopE hr approve schedOkE times maxPosts
            (createContentPool gen pool) with
        | .ok pool2 => (true, pool2)
        | .error _ => (false, createContentPool gen pool)) := by
  constructor
  · intro hs j pl hj hemp
    unfold schedule_posts_run
    rw [if_pos hs]
    cases hp : poolLoopE hr approve schedOkE times maxPosts pool with
    | error e => simpa using hj
    | ok pool2 =>
      obtain ⟨items2, hj2, hid⟩ := poolLoopE_ok_get hr approve schedOkE times maxPosts
        pool pool2 hp j pl hj
      simp only
      rw [hj2, hid hemp]
  · intro hs hload
    unfold schedule_posts_run
    rw [if_neg (by simp [hs]), hload]
    rfl

/-- Witness for C5 (amended): the pool of the counterexample — twitter
holds unused content, so the empty instagram entry is returned unchanged
(skipped). -/
theorem c5_witness :
    ((schedule_posts_run false (.ok ())
        (fun p => if p = "instagram" then .ok (some 99) else .ok (some 98))
        (fun _ _ => true) (fun _ _ => .ok true) (fun _ _ => 1000) (fun _ => 1)
        [("twitter", [⟨1, false, none⟩]), ("instagram", [])]).2)[1]? =
      some ("instagram", []) :=
  (c5_generation_forced_only_when_pool_empty false (.ok ())
      (fun p => if p = "instagram" then .ok (some 99) else .ok (some 98))
      (fun _ _ => true) (fun _ _ => .ok true) (fun _ _ => 1000) (fun _ => 1)
      [("twitter", [⟨1, false, none⟩]), ("instagram", [])]).1
    rfl 1 ("instagram", []) rfl rfl

/-! ## Claim C8: failure containment across platforms and cycles -/

theorem schedLoopE_ok (hr : Bool) (approve : Nat → Bool)
    (schedOkE : Nat → Except Unit Bool) (times : Nat → Nat) (k : Nat)
    (hok : ∀ i, ∃ b, schedOkE i = .ok b) :
    ∀ (items : List ContentItem) (i : Nat),
      ∃ l, schedLoopE hr approve schedOkE times k i items = .ok l := by
  intro items
  induction items with
  | nil => intro i; exact ⟨[], rfl⟩
  | cons c rest ih =>
    intro i
    rw [schedLoopE]
    by_cases hc : c.used
    · obtain ⟨l, hl⟩ := ih i
      rw [if_pos hc, hl]
      exact ⟨c :: l, rfl⟩
    · rw [if_neg hc]
      by_cases hik : i < k
      · rw [if_pos hik]
        by_cases hgate : hr && !approve i
        · obtain ⟨l, hl⟩ := ih (i + 1)
          rw [if_pos hgate, hl]
          exact ⟨c :: l, rfl⟩
        · obtain ⟨b, hb⟩ := hok i
          obtain ⟨l, hl⟩ := ih (i + 1)
          rw [if_neg hgate, hb, hl]
          exact ⟨_, rfl⟩
      · obtain ⟨l, hl⟩ := ih (i + 1)
        rw [if_neg hik, hl]
        exact ⟨c :: l, rfl⟩

theorem schedulePlatformE_ok (hr : Bool) (approve : Nat → Bool)
    (schedOkE : Nat → Except Unit Bool) (times : Nat → Nat) (maxPosts : Nat)
    (items : List ContentItem) (hok : ∀ i, ∃ b, schedOkE i = .ok b) :
    ∃ l, schedulePlatformE hr approve schedOkE times maxPosts items = .ok l := by
  unfold schedulePlatformE
  by_cases he : (get_unused items).isEmpty
  · rw [if_pos he]; exact ⟨items, rfl⟩
  · rw [if_neg he]
    exact schedLoopE_ok hr approve schedOkE times _ hok items 0

theorem poolLoopE_ok (hr : Bool) (approve : String → Nat → Bool)
    (schedOkE : String → Nat → Except Unit Bool) (times : String → Nat → Nat)
    (maxPosts : String → Nat) (hok : ∀ p i, ∃ b, schedOkE p i = .ok b) :
    ∀ pool : Pool, ∃ pool2, poolLoopE hr approve schedOkE times maxPosts pool = .ok pool2 := by
  intro pool
  induction pool with
  | nil => exact ⟨[], rfl⟩
  | cons q rest ih =>
    obtain ⟨items2, hq⟩ := schedulePlatformE_ok hr (approve q.1) (schedOkE q.1)
      (times q.1) (maxPosts q.1) q.2 (hok q.1)
    obtain ⟨rest2, hrest⟩ := ih
    rw [poolLoopE, hq, hrest]
    exact ⟨(q.1, items2) :: rest2, rfl⟩

/-- C8 counterexample: both platforms hold one unused item each; the
dispatcher *raises* for `"twitter"` and would report success for
`"instagram"`.  The raise escapes the scheduling loop to the single outer
handler of `schedule_posts`, so instagram is never processed in that
cycle: the call returns `False` with the pool unchanged (instagram's item
still unused) — contradicting the claim that a failure raised while
scheduling one platform does not prevent the remaining platforms of the
same cycle from being processed. -/
theorem c8_counterexample :
    (fun p (_ : Nat) =>
        if p = "twitter" then (.error () : Except Unit Bool) else .ok true)
      "instagram" 0 = .ok true ∧
    schedule_posts_run false (.ok ()) (fun _ => .ok none) (fun _ _ => true)
        (fun p _ => if p = "twitter" then (.error () : Except Unit Bool) else .ok true)
        (fun _ _ => 1000) (fun _ => 1)
        [("twitter", [⟨1, false, none⟩]), ("instagram", [⟨2, false, none⟩])] =
      (false, [("twitter", [⟨1, false, none⟩]), ("instagram", [⟨2, false, none⟩])]) :=
  ⟨rfl, by decide⟩

/-- C8 as amended: (1) a failure raised while *generating* content for one
platform is caught inside `create_content`'s per-platform loop, so each
platform's entry depends only on its own generator outcome; (2) as long
as the dispatcher *reports* failures (returns a status) instead of
raising, every platform of the cycle is processed — the scheduling loop
completes; a failure *raised* by the dispatcher, by contrast, aborts the
remaining platforms of that scheduling step (see the counterexample)
though it is still caught inside `schedule_posts`; and (3)
`run_daily_cycle` never propagates an exception to its caller, for any
behaviour of the collaborators, so the next scheduled cycle is never
aborted by the previous one. -/
theorem c8_failure_containment :
    (∀ (gen gen2 : String → Except Unit (Option Nat)) (pool : Pool) (j : Nat)
        (pl : String × List ContentItem),
      pool[j]? = some pl → gen pl.1 = gen2 pl.1 →
      (createContentPool gen pool)[j]? = (createContentPool gen2 pool)[j]?) ∧
    (∀ (hr : Bool) (approve : String → Nat → Bool)
        (schedOkE : String → Nat → Except Unit Bool) (times : String → Nat → Nat)
        (maxPosts : String → Nat) (pool : Pool),
      (∀ p i, ∃ b, schedOkE p i = .ok b) →
      ∃ pool2, poolLoopE hr approve schedOkE times maxPosts pool = .ok pool2) ∧
    (∀ (scanDue createDue : Bool) (scanO loadTrend : Except Unit Unit)
        (gen : String → Except Unit (Option Nat)) (hr : Bool)
        (approve : String → Nat → Bool) (schedOkE : String → Nat → Except Unit Bool)
        (times : String → Nat → Nat) (maxPosts : String → Nat) (pool : Pool),
      ∃ p, run_daily_cycle_run scanDue createDue scanO loadTrend gen hr approve
          schedOkE times maxPosts pool = .ok p) := by
  refine ⟨?_, ?_, ?_⟩
  · intro gen gen2 pool j pl hj hsame
    unfold createContentPool
    rw [List.getElem?_map, List.getElem?_map, hj]
    simp [hsame]
  · intro hr approve schedOkE times maxPosts pool hok
    exact poolLoopE_ok hr approve schedOkE times maxPosts hok pool
  · intro scanDue createDue scanO loadTrend gen hr approve schedOkE times maxPosts pool
    unfold run_daily_cycle_run
    split
    · exact ⟨pool, rfl⟩
    · split
      · split
        · exact ⟨_, rfl⟩
        · exact ⟨_, rfl⟩
      · exact ⟨_, rfl⟩

/-- Witness for C8 (amended): concrete generators differing only on a
platform not in the pool, a dispatcher that always reports, and a full
cycle on a one-platform pool. -/
theorem c8_witness :
    ((createContentPool (fun _ => .ok (some 5)) [("twitter", [])])[0]? =
      (createContentPool (fun p => if p = "twitter" then .ok (some 5) else .error ())
        [("twitter", [])])[0]?) ∧
    (∃ pool2, poolLoopE false (fun _ _ => true) (fun _ _ => .ok true)
        (fun _ _ => 1000) (fun _ => 1) [("twitter", [⟨1, false, none⟩])] = .ok pool2) ∧
    (∃ p, run_daily_cycle_run true true (.error ()) (.ok ()) (fun _ => .ok (some 5))
        false (fun _ _ => true) (fun _ _ => .ok true) (fun _ _ => 1000) (fun _ => 1)
        [("twitter", [])] = .ok p) :=
  ⟨c8_failure_containment.1 (fun _ => .ok (some 5))
      (fun p => if p = "twitter" then .ok (some 5) else .error ())
      [("twitter", [])] 0 ("twitter", []) rfl rfl,
   c8_failure_containment.2.1 false (fun _ _ => true) (fun _ _ => .ok true)
      (fun _ _ => 1000) (fun _ => 1) [("twitter", [⟨1, false, none⟩])]
      (fun _ _ => ⟨true, rfl⟩),
   c8_failure_containment.2.2 true true (.error ()) (.ok ()) (fun _ => .ok (some 5))
      false (fun _ _ => true) (fun _ _ => .ok true) (fun _ _ => 1000) (fun _ => 1)
      [("twitter", [])]⟩

/-! ## Claim C2: the `used` flag lifecycle under the raise-aware model

Within one completed (raise-free) traversal, marking is governed by lines
348–374: gate refusal leaves an item untouched, and a mark happens exactly
when the dispatcher reports status `'scheduled'`.  Across cycles the
persisted pool is what `schedule_posts_run` returns: a dispatcher raise
later in a pass skips `_save_content_pool` (line 377), so marks made
earlier in that pass are not persisted. -/

/-- The effect of a completed scheduling traversal on the `i`-th unused
item: for `i < k` (`k = posts_to_schedule`), a gate refusal leaves the
item untouched (`continue`, line 357); otherwise the dispatcher's reply
decides — the item is marked used with its scheduled time recorded
exactly when the reported status is `'scheduled'` (lines 368–371).  (In a
traversal that returns `.ok`, every consulted index has a reported reply,
so the raise case of the match is never exercised.) -/
def stepUnusedE (hr : Bool) (approve : Nat → Bool) (schedOkE : Nat → Except Unit Bool)
    (times : Nat → Nat) (k i : Nat) (c : ContentItem) : ContentItem :=
  if i < k then
    if hr && !approve i then c
    else
      match schedOkE i with
      | .ok true => { c with used := true, scheduled_time := some (times i) }
      | _ => c
  else c

theorem schedLoopE_get (hr : Bool) (approve : Nat → Bool)
    (schedOkE : Nat → Except Unit Bool) (times : Nat → Nat) (k : Nat) :
    ∀ (items : List ContentItem) (i : Nat) (out : List ContentItem),
      schedLoopE hr approve schedOkE times k i items = .ok out →
      ∀ j, out[j]? = (items[j]?).map (fun c =>
        if c.used then c
        else stepUnusedE hr approve schedOkE times k (i + unusedBefore items j) c) := by
  intro items
  induction items with
  | nil =>
    intro i out hout j
    rw [schedLoopE] at hout
    simp only [Except.ok.injEq] at hout
    subst hout
    simp
  | cons c rest ih =>
    intro i out hout j
    rw [schedLoopE] at hout
    by_cases hc : c.used
    · rw [if_pos hc] at hout
      cases hrec : schedLoopE hr approve schedOkE times k i rest with
      | error e => rw [hrec] at hout; simp at hout
      | ok l =>
        rw [hrec] at hout
        simp only [Except.ok.injEq] at hout
        subst hout
        cases j with
        | zero => simp [hc]
        | succ j =>
          simp only [List.getElem?_cons_succ]
          rw [ih i l hrec j, unusedBefore_cons]
          simp [hc]
    · rw [if_neg hc] at hout
      by_cases hik : i < k
      · rw [if_pos hik] at hout
        by_cases hgate : hr && !approve i
        · rw [if_pos hgate] at hout
          cases hrec : schedLoopE hr approve schedOkE times k (i + 1) rest with
          | error e => rw [hrec] at hout; simp at hout
          | ok l =>
            rw [hrec] at hout
            simp only [Except.ok.injEq] at hout
            subst hout
            cases j with
            | zero =>
              simp only [List.getElem?_cons_zero, unusedBefore_zero, Nat.add_zero,
                Option.map_some']
              rw [if_neg hc]
              unfold stepUnusedE
              rw [if_pos hik, if_pos hgate]
            | succ j =>
              simp only [List.getElem?_cons_succ]
              rw [ih (i + 1) l hrec j, unusedBefore_cons]
              have harith : i + ((if c.used then 0 else 1) + unusedBefore rest j) =
                  i + 1 + unusedBefore rest j := by
                rw [if_neg hc]; omega
              rw [harith]
        · rw [if_neg hgate] at hout
          cases hdisp : schedOkE i with
          | error e => rw [hdisp] at hout; simp at hout
          | ok b =>
            rw [hdisp] at hout
            cases hrec : schedLoopE hr approve schedOkE times k (i + 1) rest with
            | error e => rw [hrec] at hout; simp at hout
            | ok l =>
              rw [hrec] at hout
              simp only [Except.ok.injEq] at hout
              subst hout
              cases j with
              | zero =>
                cases b with
                | false =>
                  simp only [List.getElem?_cons_zero, unusedBefore_zero, Nat.add_zero,
                    Option.map_some']
                  rw [if_neg hc]
                  unfold stepUnusedE
                  rw [if_pos hik, if_neg hgate, hdisp]
                  rfl
                | true =>
                  simp only [List.getElem?_cons_zero, unusedBefore_zero, Nat.add_zero,
                    Option.map_some']
                  rw [if_neg hc]
                  unfold stepUnusedE
                  rw [if_pos hik, if_neg hgate, hdisp]
                  rfl
              | succ j =>
                simp only [List.getElem?_cons_succ]
                rw [ih (i + 1) l hrec j, unusedBefore_cons]
                have harith : i + ((if c.used then 0 else 1) + unusedBefore rest j) =
                    i + 1 + unusedBefore rest j := by
                  rw [if_neg hc]; omega
                rw [harith]
      · rw [if_neg hik] at hout
        cases hrec : schedLoopE hr approve schedOkE times k (i + 1) rest with
        | error e => rw [hrec] at hout; simp at hout
        | ok l =>
          rw [hrec] at hout
          simp only [Except.ok.injEq] at hout
          subst hout
          cases j with
          | zero =>
            simp only [List.getElem?_cons_zero, unusedBefore_zero, Nat.add_zero,
              Option.map_some']
            rw [if_neg hc]
            unfold stepUnusedE
            rw [if_neg hik]
          | succ j =>
            simp only [List.getElem?_cons_succ]
            rw [ih (i + 1) l hrec j, unusedBefore_cons]
            have harith : i + ((if c.used then 0 else 1) + unusedBefore rest j) =
                i + 1 + unusedBefore rest j := by
              rw [if_neg hc]; omega
            rw [harith]

theorem schedLoopE_used_fixed (hr : Bool) (approve : Nat → Bool)
    (schedOkE : Nat → Except Unit Bool) (times : Nat → Nat) (k : Nat)
    (items out : List ContentItem) (j : Nat) (c : ContentItem)
    (hout : schedLoopE hr approve schedOkE times k 0 items = .ok out)
    (hj : items[j]? = some c) (hc : c.used = true) : out[j]? = some c := by
  rw [schedLoopE_get hr approve schedOkE times k items 0 out hout j, hj]
  simp [hc]

theorem schedulePlatformE_used_fixed (hr : Bool) (approve : Nat → Bool)
    (schedOkE : Nat → Except Unit Bool) (times : Nat → Nat) (maxPosts : Nat)
    (items out : List ContentItem) (j : Nat) (c : ContentItem)
    (hout : schedulePlatformE hr approve schedOkE times maxPosts items = .ok out)
    (hj : items[j]? = some c) (hc : c.used = true) : out[j]? = some c := by
  unfold schedulePlatformE at hout
  by_cases he : (get_unused items).isEmpty
  · rw [if_pos he] at hout
    simp only [Except.ok.injEq] at hout
    subst hout
    exact hj
  · rw [if_neg he] at hout
    exact schedLoopE_used_fixed hr approve schedOkE times _ items out j c hout hj hc

theorem poolLoopE_used_fixed (hr : Bool) (approve : String → Nat → Bool)
    (schedOkE : String → Nat → Except Unit Bool) (times : String → Nat → Nat)
    (maxPosts : String → Nat) :
    ∀ (pool pool2 : Pool),
      poolLoopE hr approve schedOkE times maxPosts pool = .ok pool2 →
      ∀ (pj : Nat) (pl : String × List ContentItem) (j : Nat) (c : ContentItem),
        pool[pj]? = some pl → pl.2[j]? = some c → c.used = true →
        ∃ pl2, pool2[pj]? = some pl2 ∧ pl2.1 = pl.1 ∧ pl2.2[j]? = some c := by
  intro pool
  induction pool with
  | nil => intro pool2 h pj pl j c hpj hj hc; simp at hpj
  | cons q rest ih =>
    intro pool2 h pj pl j c hpj hj hc
    rw [poolLoopE] at h
    cases hq : schedulePlatformE hr (approve q.1) (schedOkE q.1) (times q.1)
        (maxPosts q.1) q.2 with
    | error e => rw [hq] at h; simp at h
    | ok items2 =>
      rw [hq] at h
      cases hrest : poolLoopE hr approve schedOkE times maxPosts rest with
      | error e => rw [hrest] at h; simp at h
      | ok rest2 =>
        rw [hrest] at h
        simp only [Except.ok.injEq] at h
        subst h
        cases pj with
        | zero =>
          simp only [List.getElem?_cons_zero, Option.some.injEq] at hpj
          subst hpj
          exact ⟨(q.1, items2), by simp, rfl,
            schedulePlatformE_used_fixed hr (approve q.1) (schedOkE q.1) (times q.1)
              (maxPosts q.1) q.2 items2 j c hq hj hc⟩
        | succ pj =>
          obtain ⟨pl2, h1, h2, h3⟩ := ih rest2 hrest pj pl j c (by simpa using hpj) hj hc
          exact ⟨pl2, by simpa using h1, h2, h3⟩

theorem createContentPool_item_fixed (gen : String → Except Unit (Option Nat))
    (pool : Pool) (pj : Nat) (pl : String × List ContentItem) (j : Nat)
    (c : ContentItem) (hpj : pool[pj]? = some pl) (hj : pl.2[j]? = some c) :
    ∃ pl2, (createContentPool gen pool)[pj]? = some pl2 ∧ pl2.1 = pl.1 ∧
      pl2.2[j]? = some c := by
  unfold createContentPool
  rw [List.getElem?_map, hpj]
  refine ⟨_, rfl, rfl, ?_⟩
  dsimp only
  cases hg : gen pl.1 with
  | error e => exact hj
  | ok o =>
    cases o with
    | none => exact hj
    | some i2 =>
      have hlen : j < pl.2.length := by
        rcases List.getElem?_eq_some_iff.mp hj with ⟨h, _⟩
        exact h
      show (pl.2 ++ [(⟨i2, false, none⟩ : ContentItem)])[j]? = some c
      rw [List.getElem?_append_left hlen]
      exact hj

theorem schedule_posts_run_used_fixed (hr : Bool) (loadTrend : Except Unit Unit)
    (gen : String → Except Unit (Option Nat)) (approve : String → Nat → Bool)
    (schedOkE : String → Nat → Except Unit Bool) (times : String → Nat → Nat)
    (maxPosts : String → Nat) (pool : Pool) (pj : Nat)
    (pl : String × List ContentItem) (j : Nat) (c : ContentItem)
    (hpj : pool[pj]? = some pl) (hj : pl.2[j]? = some c) (hc : c.used = true) :
    ∃ pl2, ((schedule_posts_run hr loadTrend gen approve schedOkE times maxPosts
        pool).2)[pj]? = some pl2 ∧ pl2.1 = pl.1 ∧ pl2.2[j]? = some c := by
  unfold schedule_posts_run
  by_cases hs : hasUnused pool
  · rw [if_pos hs]
    cases hp : poolLoopE hr approve schedOkE times maxPosts pool with
    | error e => exact ⟨pl, hpj, rfl, hj⟩
    | ok pool2 =>
      obtain ⟨pl2, h1, h2, h3⟩ := poolLoopE_used_fixed hr approve schedOkE times
        maxPosts pool pool2 hp pj pl j c hpj hj hc
      exact ⟨pl2, h1, h2, h3⟩
  · rw [if_neg hs]
    cases loadTrend with
    | error e => exact ⟨pl, hpj, rfl, hj⟩
    | ok u =>
      obtain ⟨pl1, g1, g2, g3⟩ := createContentPool_item_fixed gen pool pj pl j c hpj hj
      show ∃ pl2,
        ((match poolLoopE hr approve schedOkE times maxPosts
            (createContentPool gen pool) with
          | .ok pool2 => (true, pool2)
          | .error _ => (false, createContentPool gen pool)).2)[pj]? = some pl2 ∧
        pl2.1 = pl.1 ∧ pl2.2[j]? = some c
      cases hp : poolLoopE hr approve schedOkE times maxPosts
          (createContentPool gen pool) with
      | error e => exact ⟨pl1, g1, g2, g3⟩
      | ok pool2 =>
        obtain ⟨pl2, h1, h2, h3⟩ := poolLoopE_used_fixed hr approve schedOkE times
          maxPosts (createContentPool gen pool) pool2 hp pj pl1 j c g1 g3 hc
        exact ⟨pl2, h1, by rw [h2, g2], h3⟩

/-- The oracle data of one cycle's `schedule_posts` invocation (review
flag, trend-load outcome, generator outcomes, approval decisions,
dispatcher outcomes, posting times, per-platform daily caps). -/
structure CycleOraclesE where
  hr : Bool
  loadTrend : Except Unit Unit
  gen : String → Except Unit (Option Nat)
  approve : String → Nat → Bool
  schedOkE : String → Nat → Except Unit Bool
  times : String → Nat → Nat
  maxPosts : String → Nat

/-- The pool as persisted after any number of cycle invocations: each
cycle's effect on disk is exactly what `schedule_posts_run` returns
(raises lose that pass's marks, since the save is skipped). -/
def runCyclesE (cs : List CycleOraclesE) (pool : Pool) : Pool :=
  cs.foldl (fun acc o =>
    (schedule_posts_run o.hr o.loadTrend o.gen o.approve o.schedOkE o.times
      o.maxPosts acc).2) pool

theorem runCyclesE_used_fixed :
    ∀ (cs : List CycleOraclesE) (pool : Pool) (pj : Nat)
      (pl : String × List ContentItem) (j : Nat) (c : ContentItem),
      pool[pj]? = some pl → pl.2[j]? = some c → c.used = true →
      ∃ pl2, (runCyclesE cs pool)[pj]? = some pl2 ∧ pl2.1 = pl.1 ∧
        pl2.2[j]? = some c := by
  intro cs
  induction cs with
  | nil => intro pool pj pl j c hpj hj hc; exact ⟨pl, hpj, rfl, hj⟩
  | cons o os ih =>
    intro pool pj pl j c hpj hj hc
    obtain ⟨pl2, h1, h2, h3⟩ := schedule_posts_run_used_fixed o.hr o.loadTrend o.gen
      o.approve o.schedOkE o.times o.maxPosts pool pj pl j c hpj hj hc
    obtain ⟨pl3, g1, g2, g3⟩ := ih _ pj pl2 j c h1 h3 hc
    exact ⟨pl3, g1, by rw [g2, h2], g3⟩

/-- C2 counterexample: one platform with two unused items, daily cap 2,
gate off.  In cycle 1 the dispatcher reports `'scheduled'` for the first
item (it is submitted and accepted) but *raises* on the second; the raise
escapes to the outer handler of `schedule_posts`, `_save_content_pool`
(line 377) is skipped, and the persisted pool still shows item 1 unused.
In cycle 2 item 1 is therefore re-offered and scheduled a second time —
its `used` flag flips only now, and `schedule_post` has reported success
for the same item in two different cycles, contradicting the claimed
no-double-scheduling across cycle invocations. -/
theorem c2_counterexample :
    (fun (_p : String) (i : Nat) =>
        if i = 0 then (.ok true : Except Unit Bool) else .error ())
      "twitter" 0 = .ok true ∧
    schedule_posts_run false (.ok ()) (fun _ => .ok none) (fun _ _ => true)
        (fun _ i => if i = 0 then (.ok true : Except Unit Bool) else .error ())
        (fun _ _ => 500) (fun _ => 2)
        [("twitter", [⟨1, false, none⟩, ⟨2, false, none⟩])] =
      (false, [("twitter", [⟨1, false, none⟩, ⟨2, false, none⟩])]) ∧
    schedule_posts_run false (.ok ()) (fun _ => .ok none) (fun _ _ => true)
        (fun _ _ => (.ok true : Except Unit Bool)) (fun _ _ => 900) (fun _ => 2)
        [("twitter", [⟨1, false, none⟩, ⟨2, false, none⟩])] =
      (true, [("twitter", [⟨1, true, some 900⟩, ⟨2, true, some 900⟩])]) :=
  ⟨rfl, by decide, by decide⟩

/-- C2 as amended: in a scheduling traversal that completes without a
raised dispatcher failure, an already-used item passes through unchanged;
a fresh mark happens only when the dispatcher reported status
`'scheduled'` for that item (and, with the gate on, only after approval)
and records the scheduled time; a gate-rejected item is unchanged, stays
unused, and is still among `get_unused` of the resulting list (so it is
re-offered next cycle) — in particular mark-used never happens at
approval-gate presentation time.  Across any number of cycle invocations,
an item whose `used` flag has been *persisted* true is never modified
again (no persisted mark is ever re-scheduled).  However, a mark made
earlier in a pass that later raises is not persisted (the save is
skipped), so such an item can be scheduled again in a later cycle — see
the counterexample. -/
theorem c2_mark_on_success_and_persistence :
    (∀ (hr : Bool) (approve : Nat → Bool) (schedOkE : Nat → Except Unit Bool)
        (times : Nat → Nat) (k : Nat) (items out : List ContentItem) (j : Nat)
        (c : ContentItem),
      schedLoopE hr approve schedOkE times k 0 items = .ok out →
      items[j]? = some c →
      ∃ d, out[j]? = some d ∧
        (c.used = true → d = c) ∧
        (c.used = false → d.used = true →
          schedOkE (unusedBefore items j) = .ok true ∧
          (hr = true → approve (unusedBefore items j) = true) ∧
          d.scheduled_time = some (times (unusedBefore items j))) ∧
        (c.used = false → hr = true → approve (unusedBefore items j) = false →
          d = c ∧ d ∈ get_unused out)) ∧
    (∀ (cs : List CycleOraclesE) (pool : Pool) (pj : Nat)
        (pl : String × List ContentItem) (j : Nat) (c : ContentItem),
      pool[pj]? = some pl → pl.2[j]? = some c → c.used = true →
      ∃ pl2, (runCyclesE cs pool)[pj]? = some pl2 ∧ pl2.1 = pl.1 ∧
        pl2.2[j]? = some c) := by
  constructor
  · intro hr approve schedOkE times k items out j c hout hj
    have hget := schedLoopE_get hr approve schedOkE times k items 0 out hout j
    rw [hj] at hget
    by_cases hc : c.used
    · refine ⟨c, ?_, fun _ => rfl, ?_, ?_⟩
      · rw [hget]; simp [hc]
      · intro hf; exact absurd hc (by simp [hf])
      · intro hf; exact absurd hc (by simp [hf])
    · have hcf : c.used = false := by simpa using hc
      simp only [Nat.zero_add] at hget
      set ub := unusedBefore items j with hub
      refine ⟨stepUnusedE hr approve schedOkE times k ub c, ?_, ?_, ?_, ?_⟩
      · rw [hget]; simp [hcf]
      · intro hct; rw [hct] at hcf; exact absurd hcf (by simp)
      · intro _ hd
        unfold stepUnusedE at hd ⊢
        by_cases hik : ub < k
        · rw [if_pos hik] at hd ⊢
          by_cases hgate : hr && !approve ub
          · rw [if_pos hgate] at hd
            rw [hd] at hcf; simp at hcf
          · rw [if_neg hgate] at hd ⊢
            cases hdisp : schedOkE ub with
            | error e =>
              rw [hdisp] at hd
              simp at hd
              rw [hd] at hcf; simp at hcf
            | ok b =>
              cases b with
              | false =>
                rw [hdisp] at hd
                simp at hd
                rw [hd] at hcf; simp at hcf
              | true =>
                refine ⟨rfl, ?_, ?_⟩
                · intro hhr
                  rw [hhr] at hgate
                  simpa using hgate
                · rfl
        · rw [if_neg hik] at hd
          rw [hd] at hcf; simp at hcf
      · intro _ hhr hrej
        have hdc : stepUnusedE hr approve schedOkE times k ub c = c := by
          unfold stepUnusedE
          by_cases hik : ub < k
          · rw [if_pos hik, hhr, hrej]
            simp
          · rw [if_neg hik]
        refine ⟨hdc, ?_⟩
        have hmem : stepUnusedE hr approve schedOkE times k ub c ∈ out := by
          apply List.getElem?_mem
          rw [hget]; simp [hcf]
        rw [hdc] at hmem ⊢
        unfold get_unused
        rw [List.mem_filter]
        exact ⟨hmem, by simp [hcf]⟩
  · exact runCyclesE_used_fixed

/-- Witness for C2 (amended): a gate-rejected one-item traversal that
completes, and a persisted-used item surviving one further cycle. -/
theorem c2_witness :
    (∃ d, (([⟨1, false, none⟩] : List ContentItem))[0]? = some d ∧
      ((⟨1, false, none⟩ : ContentItem).used = true → d = ⟨1, false, none⟩) ∧
      ((⟨1, false, none⟩ : ContentItem).used = false → d.used = true →
        (fun _ => (.ok true : Except Unit Bool)) (unusedBefore [⟨1, false, none⟩] 0) =
          .ok true ∧
        (true = true →
          (fun _ => false : Nat → Bool) (unusedBefore [⟨1, false, none⟩] 0) = true) ∧
        d.scheduled_time =
          some ((fun _ => 100 : Nat → Nat) (unusedBefore [⟨1, false, none⟩] 0))) ∧
      ((⟨1, false, none⟩ : ContentItem).used = false → true = true →
        (fun _ => false : Nat → Bool) (unusedBefore [⟨1, false, none⟩] 0) = false →
        d = ⟨1, false, none⟩ ∧ d ∈ get_unused [⟨1, false, none⟩])) ∧
    (∃ pl2, (runCyclesE
        [⟨false, .ok (), fun _ => .ok none, fun _ _ => true, fun _ _ => .ok true,
          fun _ _ => 7, fun _ => 1⟩]
        [("twitter", [⟨1, true, some 5⟩])])[0]? = some pl2 ∧
      pl2.1 = ("twitter", [(⟨1, true, some 5⟩ : ContentItem)]).1 ∧
      pl2.2[0]? = some ⟨1, true, some 5⟩) :=
  ⟨c2_mark_on_success_and_persistence.1 true (fun _ => false)
      (fun _ => .ok true) (fun _ => 100) 1 [⟨1, false, none⟩] [⟨1, false, none⟩] 0
      ⟨1, false, none⟩ rfl rfl,
   c2_mark_on_success_and_persistence.2
      [⟨false, .ok (), fun _ => .ok none, fun _ _ => true, fun _ _ => .ok true,
        fun _ _ => 7, fun _ => 1⟩]
      [("twitter", [⟨1, true, some 5⟩])] 0 ("twitter", [⟨1, true, some 5⟩]) 0
      ⟨1, true, some 5⟩ rfl rfl rfl⟩

/-! ## Claim C9: dry-run dispatch (modelled from the spec)

The `SchedulerAgent` class (`agents/scheduler/scheduler_agent.py`) is
imported by `orchestrator.py` and `demos/scheduler_demo.py` but its source
file is not part of the tree; the dispatcher below is modelled from the
specification of PostDispatcher (§4.4). -/

/-- Status of a `ScheduledPost` (spec §3). -/
inductive PostStatus
  | pending
  | approved
  | rejected
  | dispatched
  | retrying
  | failed
deriving DecidableEq, Repr

/-- Outcome of one `PlatformPublisher.publish` attempt (spec §6). -/
inductive PubOutcome
  | success
  | transient
  | permanent
deriving DecidableEq, Repr

/-- Modelled from the spec: the retry loop of PostDispatcher (§4.4) for a
real (non-dry) run — `publisher a` is the outcome of attempt `a`; the
second argument is the number of retries still allowed.  Returns the
sequence of statuses the post moves through from this point on, paired
with the number of publisher invocations made.  On success the post
becomes `dispatched`; on a permanent error, `failed` with no retry; on a
transient error it becomes `retrying` and the next attempt runs, until
the retry budget is exhausted, after which it is `failed`. -/
def attemptsLoop (publisher : Nat → PubOutcome) : Nat → Nat → List PostStatus × Nat
  | a, 0 =>
    match publisher a with
    | .success => ([.dispatched], 1)
    | _ => ([.failed], 1)
  | a, fuel + 1 =>
    match publisher a with
    | .success => ([.dispatched], 1)
    | .permanent => ([.failed], 1)
    | .transient =>
      (.retrying :: (attemptsLoop publisher (a + 1) fuel).1,
       (attemptsLoop publisher (a + 1) fuel).2 + 1)

/-- Modelled from the spec: `SchedulerAgent.schedule_post` followed by
dispatch at the scheduled time (§4.4).  The post is created `pending` and
persisted; in `dry_run` mode the publish call is simulated and always
succeeds with no publisher interaction, otherwise the retry loop runs
with `max_retries` as configured.  Returns the status history (starting
at `pending`) and the number of `PlatformPublisher` calls. -/
def schedule_post_dispatch (dry_run : Bool) (publisher : Nat → PubOutcome)
    (max_retries : Nat) : List PostStatus × Nat :=
  if dry_run then ([.pending, .dispatched], 0)
  else
    (.pending :: (attemptsLoop publisher 0 max_retries).1,
     (attemptsLoop publisher 0 max_retries).2)

/-- C9: in `dry_run` mode, `schedule_post` on valid content drives the
`ScheduledPost` through the very status transitions of a real run whose
publish succeeds — `pending` then `dispatched` — reaching final status
`dispatched`, while making zero calls to the `PlatformPublisher`. -/
theorem c9_dry_run_dispatch (publisher : Nat → PubOutcome) (max_retries : Nat) :
    schedule_post_dispatch true publisher max_retries = ([.pending, .dispatched], 0) ∧
    (schedule_post_dispatch true publisher max_retries).1 =
      (schedule_post_dispatch false (fun _ => .success) max_retries).1 ∧
    (schedule_post_dispatch true publisher max_retries).1.getLast? =
      some .dispatched := by
  refine ⟨rfl, ?_, rfl⟩
  show [PostStatus.pending, .dispatched] =
    .pending :: (attemptsLoop (fun _ => .success) 0 max_retries).1
  cases max_retries with
  | zero => rfl
  | succ n => rfl

end SMA
